import Mathlib

/-!
Verification of the streaming message pipeline and session-state machine of
the hikari-code chat client.

The embedding models:
* `src/frontend/src/types/chat.ts` — the `ChatMessage` / `ChatSession` data model;
* `src/utils/chatHistory.ts` — the persistent store adapter and session factory;
* `src/frontend/src/components/ChatHistoryProvider.tsx` — the chat history manager;
* `src/frontend/src/components/ChatContainer.tsx` — `handleSendMessage`, the
  streaming request pipeline.

JavaScript strings are modelled as Lean `String`s (sequences of code points;
JS indexes by UTF-16 code units, which agrees on BMP text).  The JS builtins
the code relies on (`String.prototype.split`, `startsWith`, `slice`,
`JSON.parse`) are modelled below over `List Char`.  JSON numbers are modelled
as integers: every numeric literal occurring in the wire protocol
(`timestamp`, `done` flags etc.) is integral, and fractional or exponent
literals are outside the model.
-/

namespace Hikari

/-! ### Models of the JavaScript string builtins used by the pipeline -/

/-- Model of JS `s.split('\n')` on a list of characters: splits at every
newline, keeping empty segments (including a trailing empty segment when the
input ends in a newline). -/
def jsSplitNewlineChars : List Char → List (List Char)
  | [] => [[]]
  | c :: cs =>
    let rest := jsSplitNewlineChars cs
    if c = '\n' then [] :: rest
    else
      match rest with
      | [] => [[c]]
      | r :: rs => (c :: r) :: rs

/-- Model of JS `s.split('\n')` on strings. -/
def jsSplitNewline (s : String) : List String :=
  (jsSplitNewlineChars s.data).map List.asString

/-- Model of JS `s.startsWith(p)`. -/
def jsStartsWith (s p : String) : Bool :=
  p.data.isPrefixOf s.data

/-- Model of JS `s.slice(n)` for a nonnegative `n`. -/
def jsSlice (s : String) (n : Nat) : String :=
  (s.data.drop n).asString

/-- Model of JS `s.substring(0, n)`. -/
def jsSubstringTo (s : String) (n : Nat) : String :=
  (s.data.take n).asString

/-- Model of JS `s.length`. -/
def jsLength (s : String) : Nat :=
  s.data.length

/-! ### Model of JSON values and of `JSON.parse`

`JSON.parse` is the platform builtin used by the streaming loop (on each
`data: ` record) and by the store adapter.  It is modelled as a recursive
descent parser producing the `Json` value tree. -/

/-- A parsed JSON value.  Numbers are modelled as integers (see the header
note). -/
inductive Json where
  | null : Json
  | bool : Bool → Json
  | num : Int → Json
  | str : String → Json
  | arr : List Json → Json
  | obj : List (String × Json) → Json
deriving Repr, Inhabited

/-- Property access `o[k]` on a parsed JSON value: on an object the last
binding of the key wins (as in `JSON.parse`); on every other value the access
yields `undefined`, modelled as `none`. -/
def Json.getField (j : Json) (k : String) : Option Json :=
  match j with
  | .obj kvs => kvs.foldl (fun r kv => if kv.1 = k then some kv.2 else r) none
  | _ => none

/-- JS truthiness of a JSON value. -/
def Json.truthy : Json → Bool
  | .null => false
  | .bool b => b
  | .num n => n != 0
  | .str s => s != ""
  | .arr _ => true
  | .obj _ => true

/-- JS truthiness of a possibly-`undefined` value (`undefined` is falsy). -/
def jsTruthy (j : Option Json) : Bool :=
  match j with
  | none => false
  | some v => v.truthy

mutual

/-- Model of JS string coercion `String(v)` as used by `+=` on a parsed JSON
value. -/
def Json.jsToString : Json → String
  | .null => "null"
  | .bool true => "true"
  | .bool false => "false"
  | .num n => toString n
  | .str s => s
  | .arr xs => Json.jsToStringList xs
  | .obj _ => "[object Object]"

/-- JS array-to-string coercion: elements joined by commas. -/
def Json.jsToStringList : List Json → String
  | [] => ""
  | [x] => Json.jsToString x
  | x :: y :: xs => Json.jsToString x ++ "," ++ Json.jsToStringList (y :: xs)

end

/-- JSON whitespace. -/
def isJsonWs (c : Char) : Bool :=
  c = ' ' || c = '\t' || c = '\n' || c = '\r'

/-- Skip JSON whitespace. -/
def skipWs : List Char → List Char
  | [] => []
  | c :: cs => if isJsonWs c then skipWs cs else c :: cs

/-- Decimal digits to a natural number (most significant first). -/
def digitsToNat (ds : List Char) : Nat :=
  ds.foldl (fun n d => 10 * n + (d.toNat - '0'.toNat)) 0

/-- Hexadecimal digit value. -/
def hexVal (c : Char) : Option Nat :=
  if '0' ≤ c ∧ c ≤ '9' then some (c.toNat - '0'.toNat)
  else if 'a' ≤ c ∧ c ≤ 'f' then some (c.toNat - 'a'.toNat + 10)
  else if 'A' ≤ c ∧ c ≤ 'F' then some (c.toNat - 'A'.toNat + 10)
  else none

/-- Decode a single-character JSON escape (the character after `\`). -/
def escChar (e : Char) : Option Char :=
  if e = '"' then some '"'
  else if e = '\\' then some '\\'
  else if e = '/' then some '/'
  else if e = 'b' then some '\x08'
  else if e = 'f' then some '\x0c'
  else if e = 'n' then some '\n'
  else if e = 'r' then some '\r'
  else if e = 't' then some '\t'
  else none

/-- Parse the body of a JSON string literal (the opening quote already
consumed), returning the decoded characters and the rest of the input. -/
def parseStringBody : List Char → Option (List Char × List Char)
  | [] => none
  | '"' :: cs => some ([], cs)
  | '\\' :: 'u' :: h₁ :: h₂ :: h₃ :: h₄ :: cs =>
    match hexVal h₁, hexVal h₂, hexVal h₃, hexVal h₄ with
    | some v₁, some v₂, some v₃, some v₄ =>
      match parseStringBody cs with
      | none => none
      | some (tail, rest) =>
        some (Char.ofNat (((v₁ * 16 + v₂) * 16 + v₃) * 16 + v₄) :: tail, rest)
    | _, _, _, _ => none
  | '\\' :: e :: cs =>
    match escChar e with
    | none => none
    | some d =>
      match parseStringBody cs with
      | none => none
      | some (tail, rest) => some (d :: tail, rest)
  | c :: cs =>
    if c.toNat < 0x20 then none
    else
      match parseStringBody cs with
      | none => none
      | some (tail, rest) => some (c :: tail, rest)

/-- Parse an unsigned integer literal: one or more digits, not followed by a
fraction or exponent (fractional numbers are outside the model). -/
def parseNatLit (cs : List Char) : Option (Nat × List Char) :=
  let ds := cs.takeWhile Char.isDigit
  let rest := cs.dropWhile Char.isDigit
  if ds.isEmpty then none
  else
    match rest with
    | '.' :: _ => none
    | 'e' :: _ => none
    | 'E' :: _ => none
    | _ => some (digitsToNat ds, rest)

mutual

/-- Parse one JSON value (leading whitespace allowed), with fuel. -/
def parseValue : Nat → List Char → Option (Json × List Char)
  | 0, _ => none
  | fuel + 1, cs =>
    match skipWs cs with
    | [] => none
    | c :: rest =>
      if c = '\x7b' then
        match skipWs rest with
        | '\x7d' :: rest₂ => some (.obj [], rest₂)
        | rest₂ => parseMembers fuel rest₂
      else if c = '[' then
        match skipWs rest with
        | ']' :: rest₂ => some (.arr [], rest₂)
        | rest₂ => parseElements fuel rest₂
      else if c = '"' then
        match parseStringBody rest with
        | none => none
        | some (body, rest₂) => some (.str body.asString, rest₂)
      else if c = 't' then
        match rest with
        | 'r' :: 'u' :: 'e' :: rest₂ => some (.bool true, rest₂)
        | _ => none
      else if c = 'f' then
        match rest with
        | 'a' :: 'l' :: 's' :: 'e' :: rest₂ => some (.bool false, rest₂)
        | _ => none
      else if c = 'n' then
        match rest with
        | 'u' :: 'l' :: 'l' :: rest₂ => some (.null, rest₂)
        | _ => none
      else if c = '-' then
        match parseNatLit rest with
        | none => none
        | some (n, rest₂) => some (.num (-(n : Int)), rest₂)
      else if c.isDigit then
        match parseNatLit (c :: rest) with
        | none => none
        | some (n, rest₂) => some (.num (n : Int), rest₂)
      else none

/-- Parse the members of a JSON object after `{` (at least one member),
including the closing `}`. -/
def parseMembers : Nat → List Char → Option (Json × List Char)
  | 0, _ => none
  | fuel + 1, cs =>
    match skipWs cs with
    | '"' :: rest =>
      match parseStringBody rest with
      | none => none
      | some (key, rest₂) =>
        match skipWs rest₂ with
        | ':' :: rest₃ =>
          match parseValue fuel rest₃ with
          | none => none
          | some (v, rest₄) =>
            match skipWs rest₄ with
            | ',' :: rest₅ =>
              match parseMembers fuel rest₅ with
              | some (.obj kvs, rest₆) => some (.obj ((key.asString, v) :: kvs), rest₆)
              | _ => none
            | '\x7d' :: rest₅ => some (.obj [(key.asString, v)], rest₅)
            | _ => none
        | _ => none
    | _ => none

/-- Parse the elements of a JSON array after `[` (at least one element),
including the closing `]`. -/
def parseElements : Nat → List Char → Option (Json × List Char)
  | 0, _ => none
  | fuel + 1, cs =>
    match parseValue fuel cs with
    | none => none
    | some (v, rest) =>
      match skipWs rest with
      | ',' :: rest₂ =>
        match parseElements fuel rest₂ with
        | some (.arr vs, rest₃) => some (.arr (v :: vs), rest₃)
        | _ => none
      | ']' :: rest₂ => some (.arr [v], rest₂)
      | _ => none

end

/-- Model of `JSON.parse`: the whole input (up to surrounding whitespace) must
be a single JSON value; `none` models the thrown `SyntaxError`. -/
def parseJson (s : String) : Option Json :=
  match parseValue (s.data.length + 1) s.data with
  | none => none
  | some (v, rest) => if skipWs rest = [] then some v else none

/-! ### Data model (`src/frontend/src/types/chat.ts`)

`timestamp`, `createdAt`, `updatedAt` are millisecond timestamps
(`Date.now()`), modelled as `Nat`. -/

/-- `ChatMessage` from `types/chat.ts`. -/
structure ChatMessage where
  id : String
  text : String
  isUser : Bool
  timestamp : Nat
deriving Repr, DecidableEq

/-- `ChatSession` from `types/chat.ts`. -/
structure ChatSession where
  id : String
  title : String
  messages : List ChatMessage
  createdAt : Nat
  updatedAt : Nat
deriving Repr, DecidableEq

/-! ### Store adapter and session factory (`src/utils/chatHistory.ts`)

`localStorage` holds one string under `hikari_chat_history`;
`saveChatHistory` writes `JSON.stringify(history)` and `loadChatHistory`
returns `JSON.parse` of the stored string (or `[]` when there is no `window`
context, no stored value, or parsing throws).  `JSON.stringify` and
`JSON.parse` are exact inverses on JSON value trees, so the store is modelled
as holding the parsed JSON value itself (`Option Json`, `none` = key absent);
the adapter's encode/decode between session lists and JSON values makes the
`as ChatSession[]` cast of the source explicit. -/

/-- JSON encoding of a `ChatMessage` (field order as in `JSON.stringify` of
an object literal built in source order). -/
def encodeMessage (m : ChatMessage) : Json :=
  .obj [("id", .str m.id), ("text", .str m.text), ("isUser", .bool m.isUser),
        ("timestamp", .num m.timestamp)]

/-- JSON encoding of a `ChatSession`. -/
def encodeSession (s : ChatSession) : Json :=
  .obj [("id", .str s.id), ("title", .str s.title),
        ("messages", .arr (s.messages.map encodeMessage)),
        ("createdAt", .num s.createdAt), ("updatedAt", .num s.updatedAt)]

/-- JSON encoding of the whole history. -/
def encodeHistory (h : List ChatSession) : Json :=
  .arr (h.map encodeSession)

/-- Decoding of a `ChatMessage` from a JSON value. -/
def decodeMessage (j : Json) : Option ChatMessage :=
  match j.getField "id", j.getField "text", j.getField "isUser",
        j.getField "timestamp" with
  | some (.str i), some (.str t), some (.bool u), some (.num ts) =>
    if 0 ≤ ts then some ⟨i, t, u, ts.toNat⟩ else none
  | _, _, _, _ => none

/-- Decoding of a list of JSON values elementwise. -/
def decodeList {α : Type} (dec : Json → Option α) : List Json → Option (List α)
  | [] => some []
  | j :: js =>
    match dec j, decodeList dec js with
    | some a, some as => some (a :: as)
    | _, _ => none

/-- Decoding of a `ChatSession` from a JSON value. -/
def decodeSession (j : Json) : Option ChatSession :=
  match j.getField "id", j.getField "title", j.getField "messages",
        j.getField "createdAt", j.getField "updatedAt" with
  | some (.str i), some (.str t), some (.arr ms), some (.num c), some (.num u) =>
    match decodeList decodeMessage ms with
    | some msgs => if 0 ≤ c ∧ 0 ≤ u then some ⟨i, t, msgs, c.toNat, u.toNat⟩ else none
    | none => none
  | _, _, _, _, _ => none

/-- Decoding of the whole history from a JSON value. -/
def decodeHistory (j : Json) : Option (List ChatSession) :=
  match j with
  | .arr js => decodeList decodeSession js
  | _ => none

/-- `loadChatHistory`: `[]` when no window context, no stored value, or the
stored value does not decode as a session list (the source returns the parsed
value through an unchecked cast; ill-shaped values are outside the typed
model and degrade to `[]`). -/
def loadChatHistory (hasWindow : Bool) (store : Option Json) : List ChatSession :=
  if hasWindow then
    match store with
    | none => []
    | some j => (decodeHistory j).getD []
  else []

/-- `saveChatHistory`: stores the JSON encoding of the history; no-op when no
window context. -/
def saveChatHistory (hasWindow : Bool) (history : List ChatSession)
    (store : Option Json) : Option Json :=
  if hasWindow then some (encodeHistory history) else store

/-- `createNewChatSession`: fresh empty session stamped with the current
time. -/
def createNewChatSession (now : Nat) : ChatSession :=
  { id := "chat-" ++ toString now
    title := "New Chat"
    messages := []
    createdAt := now
    updatedAt := now }

/-- `generateMessageId`: timestamp plus random base-36 suffix (the suffix is
passed in explicitly). -/
def generateMessageId (now : Nat) (suffix : String) : String :=
  "msg-" ++ toString now ++ "-" ++ suffix

/-! ### Chat history manager (`ChatHistoryProvider.tsx`)

The provider's React state is modelled as `HistoryState`; `Date.now()` and
`generateMessageId()` results are passed in explicitly.  The unconditional
re-save effect of every mutation is `saveChatHistory` applied to the
resulting `chatSessions` and is not folded into the state transitions. -/

/-- The provider's state. -/
structure HistoryState where
  chatSessions : List ChatSession
  currentChatSessionId : Option String
  isLoading : Bool
deriving Repr, DecidableEq

/-- The initial-load effect: select the most recent session of the loaded
history, or create a fresh session when the history is empty. -/
def initializeHistory (history : List ChatSession) (now : Nat) : HistoryState :=
  match history with
  | [] =>
    let s := createNewChatSession now
    { chatSessions := [s], currentChatSessionId := some s.id, isLoading := false }
  | first :: _ =>
    { chatSessions := history, currentChatSessionId := some first.id,
      isLoading := false }

/-- `startNewChat`: prepend a fresh session and make it current. -/
def startNewChat (st : HistoryState) (now : Nat) : HistoryState :=
  let s := createNewChatSession now
  { st with chatSessions := s :: st.chatSessions,
            currentChatSessionId := some s.id }

/-- `selectChatSession`: set the current id without validating existence. -/
def selectChatSession (st : HistoryState) (sessionId : String) : HistoryState :=
  { st with currentChatSessionId := some sessionId }

/-- The title derivation of `addMessageToCurrentChat`:
`text.substring(0, 30) + (text.length > 30 ? "..." : "")`. -/
def deriveTitle (text : String) : String :=
  jsSubstringTo text 30 ++ (if 30 < jsLength text then "..." else "")

/-- The per-session update performed by `addMessageToCurrentChat` on a session
matching the current id: append the message, refresh `updatedAt`, and derive
the title when the session was empty and the message is a user message. -/
def addToSession (session : ChatSession) (newId : String) (now : Nat)
    (text : String) (isUser : Bool) : ChatSession :=
  { session with
    messages := session.messages ++ [⟨newId, text, isUser, now⟩]
    updatedAt := now
    title :=
      if session.messages.length = 0 ∧ isUser = true then deriveTitle text
      else session.title }

/-- `addMessageToCurrentChat`: no-op without a current id (the JS guard
`if (!currentChatSessionId) return` — the empty string, also falsy, never
arises as a session id from the factory); otherwise update every session
whose id equals the current id via `addToSession`. -/
def addMessageToCurrentChat (st : HistoryState) (newId : String) (now : Nat)
    (text : String) (isUser : Bool) : HistoryState :=
  match st.currentChatSessionId with
  | none => st
  | some cur =>
    { st with
      chatSessions := st.chatSessions.map (fun session =>
        if session.id = cur then addToSession session newId now text isUser
        else session) }

/-- The per-session update performed by `updateLastAIMessage`: replace the
text and timestamp of the last message when it exists and is not a user
message; otherwise return the session unchanged. -/
def updateSessionLastAI (session : ChatSession) (now : Nat) (newText : String) :
    ChatSession :=
  match session.messages.getLast? with
  | some last =>
    if last.isUser then session
    else
      { session with
        messages := session.messages.dropLast ++
          [{ last with text := newText, timestamp := now }]
        updatedAt := now }
  | none => session

/-- `updateLastAIMessage`: no-op without a current id (same falsy guard as
`addMessageToCurrentChat`); otherwise update every session whose id equals
the current id via `updateSessionLastAI`. -/
def updateLastAIMessage (st : HistoryState) (now : Nat) (newText : String) :
    HistoryState :=
  match st.currentChatSessionId with
  | none => st
  | some cur =>
    { st with
      chatSessions := st.chatSessions.map (fun session =>
        if session.id = cur then updateSessionLastAI session now newText
        else session) }

/-- The derived `currentChatMessages`: the messages of the first session
matching the current id, or `[]`. -/
def currentChatMessages (st : HistoryState) : List ChatMessage :=
  match st.currentChatSessionId with
  | none => []
  | some cur =>
    match st.chatSessions.find? (fun s => s.id = cur) with
    | some s => s.messages
    | none => []

/-- One mutating operation of the manager, with its environment-supplied
timestamp / message id. -/
inductive HistoryOp where
  | startNew (now : Nat)
  | select (sessionId : String)
  | add (newId : String) (now : Nat) (text : String) (isUser : Bool)
  | updateLast (now : Nat) (newText : String)
deriving Repr, DecidableEq

/-- Apply one operation. -/
def applyOp (st : HistoryState) : HistoryOp → HistoryState
  | .startNew now => startNewChat st now
  | .select sessionId => selectChatSession st sessionId
  | .add newId now text isUser => addMessageToCurrentChat st newId now text isUser
  | .updateLast now newText => updateLastAIMessage st now newText

/-- Apply a sequence of operations. -/
def runOps (st : HistoryState) (ops : List HistoryOp) : HistoryState :=
  ops.foldl applyOp st

/-- Whether a session with the given id exists in the sequence. -/
def sessionExists (st : HistoryState) (i : String) : Bool :=
  st.chatSessions.any (fun s => s.id = i)

/-- The current-session reference is not dangling: the current id, if set,
names an existing session. -/
def currentValid (st : HistoryState) : Prop :=
  ∀ i, st.currentChatSessionId = some i → sessionExists st i = true

/-- The calling discipline the spec expects of the presentation layer:
`selectChatSession` is only passed ids of existing sessions. -/
def opOk (st : HistoryState) : HistoryOp → Prop
  | .select i => sessionExists st i = true
  | _ => True

/-- A sequence of operations each of which respects `opOk` in the state it is
applied to. -/
def ValidOps : HistoryState → List HistoryOp → Prop
  | _, [] => True
  | st, op :: ops => opOk st op ∧ ValidOps (applyOp st op) ops

/-- One `addMessage(text, isUser)` call with its environment-supplied message
id and timestamp. -/
structure AddCall where
  newId : String
  now : Nat
  text : String
  isUser : Bool
deriving Repr, DecidableEq

/-- A sequence of `addMessage` calls targeted at one session. -/
def foldAddCalls (s : ChatSession) (calls : List AddCall) : ChatSession :=
  calls.foldl (fun s c => addToSession s c.newId c.now c.text c.isUser) s

/-! ### Streaming request pipeline (`ChatContainer.tsx`, `handleSendMessage`)

The fetch result is modelled as a completed HTTP response: a status code and
an optional list of chunk reads (`none` models a body whose reader cannot be
obtained; the chunks are the text produced by the streaming `TextDecoder`,
which the claims only exercise on ASCII input).  `Date.now()` and the two
generated message ids are passed in explicitly.  The `SendResult` records the
final provider state, the final value of the `isSendingMessage` flag, and how
many times `showError` ran. -/

/-- A completed HTTP response as seen by `handleSendMessage`. -/
structure FetchResponse where
  status : Nat
  body : Option (List String)
deriving Repr, DecidableEq

/-- `response.ok`: status in the inclusive range 200–299. -/
def FetchResponse.ok (r : FetchResponse) : Bool :=
  decide (200 ≤ r.status ∧ r.status < 300)

/-- The fixed apology text written to the placeholder on every failure
path. -/
def apologyText : String :=
  "Sorry, I encountered an error. Please try again."

/-- Outcome of one `handleSendMessage` run. -/
structure SendResult where
  state : HistoryState
  isSendingMessage : Bool
  errorNotifications : Nat
deriving Repr, DecidableEq

/-- Processing of one line of a chunk.  Returns the new accumulator, the new
provider state, and whether the per-line loop breaks (a truthy `done`).

The `throw new Error(data.error)` of the source is raised inside the same
`try` whose `catch (parseError)` handles JSON parse failures, so a truthy
`error` field is caught there, logged, and the loop continues: it neither
aborts the stream nor fails the send. -/
def processLine (now : Nat) (acc : String) (st : HistoryState) (line : String) :
    String × HistoryState × Bool :=
  if jsStartsWith line "data: " then
    match parseJson (jsSlice line 6) with
    | none => (acc, st, false)
    | some data =>
      if jsTruthy (data.getField "error") then
        (acc, st, false)
      else
        let hasContent := jsTruthy (data.getField "content")
        let acc' :=
          if hasContent then acc ++ ((data.getField "content").getD .null).jsToString
          else acc
        let st' := if hasContent then updateLastAIMessage st now acc' else st
        (acc', st', jsTruthy (data.getField "done"))
  else (acc, st, false)

/-- The content a line contributes to the accumulator, if any: the line must
carry the `data: ` marker, its payload must parse as JSON, the record must
not carry a truthy `error` field, and its `content` field must be truthy. -/
def lineContent (line : String) : Option String :=
  if jsStartsWith line "data: " then
    match parseJson (jsSlice line 6) with
    | none => none
    | some data =>
      if jsTruthy (data.getField "error") then none
      else if jsTruthy (data.getField "content") then
        some ((data.getField "content").getD .null).jsToString
      else none
  else none

/-- Whether a line breaks the per-chunk loop: a parsed record, without a
truthy `error` field, whose `done` field is truthy. -/
def lineBreaks (line : String) : Bool :=
  if jsStartsWith line "data: " then
    match parseJson (jsSlice line 6) with
    | none => false
    | some data =>
      if jsTruthy (data.getField "error") then false
      else jsTruthy (data.getField "done")
  else false

/-- The per-chunk `for (const line of lines)` loop, stopping early on a
truthy `done`. -/
def processLines (now : Nat) : List String → String → HistoryState →
    String × HistoryState
  | [], acc, st => (acc, st)
  | line :: rest, acc, st =>
    match processLine now acc st line with
    | (acc', st', true) => (acc', st')
    | (acc', st', false) => processLines now rest acc' st'

/-- The outer read loop: each chunk is split on newlines and its lines are
processed.  A `done` break only ends the per-chunk line loop; reading
continues with the next chunk. -/
def processChunks (now : Nat) (chunks : List String) (acc : String)
    (st : HistoryState) : String × HistoryState :=
  chunks.foldl (fun p chunk => processLines now (jsSplitNewline chunk) p.1 p.2)
    (acc, st)

/-- The accumulator produced by folding a list of chunks from an empty
accumulator.  The accumulator of the read loop depends only on the chunks
(`processChunks_acc_pure`), so it is evaluated here at a fixed dummy state. -/
def pureAcc (chunks : List String) : String :=
  (processChunks 0 chunks "" ⟨[], none, true⟩).1

/-- `handleSendMessage text`: append the user message, append the empty
assistant placeholder, run the request, fold the stream into the placeholder,
and on any failure path show one error notification and overwrite the
placeholder with the apology text.  The `finally` clause always clears the
sending flag. -/
def handleSendMessage (st : HistoryState) (userMsgId aiMsgId : String)
    (now : Nat) (text : String) (resp : FetchResponse) : SendResult :=
  let st₁ := addMessageToCurrentChat st userMsgId now text true
  let st₂ := addMessageToCurrentChat st₁ aiMsgId now "" false
  if resp.ok then
    match resp.body with
    | none =>
      { state := updateLastAIMessage st₂ now apologyText
        isSendingMessage := false, errorNotifications := 1 }
    | some chunks =>
      let r := processChunks now chunks "" st₂
      if r.1 = "" then
        { state := updateLastAIMessage r.2 now apologyText
          isSendingMessage := false, errorNotifications := 1 }
      else
        { state := r.2, isSendingMessage := false, errorNotifications := 0 }
  else
    { state := updateLastAIMessage st₂ now apologyText
      isSendingMessage := false, errorNotifications := 1 }

/-! ### Helper lemmas -/

theorem addToSession_id (s : ChatSession) (i : String) (now : Nat) (t : String)
    (u : Bool) : (addToSession s i now t u).id = s.id := rfl

theorem updateSessionLastAI_id (s : ChatSession) (now : Nat) (t : String) :
    (updateSessionLastAI s now t).id = s.id := by
  unfold updateSessionLastAI
  cases s.messages.getLast? with
  | none => rfl
  | some last => by_cases h : last.isUser <;> simp [h]

theorem find?_map_update (l : List ChatSession) (cur : String)
    (g : ChatSession → ChatSession) (hg : ∀ s, (g s).id = s.id) :
    (l.map (fun s => if s.id = cur then g s else s)).find?
        (fun s => s.id = cur)
      = (l.find? (fun s => s.id = cur)).map g := by
  induction l with
  | nil => rfl
  | cons a l ih =>
    by_cases h : a.id = cur
    · rw [List.map_cons, if_pos h, List.find?_cons_of_pos, List.find?_cons_of_pos]
      · rfl
      · simp [h]
      · simp [hg, h]
    · rw [List.map_cons, if_neg h, List.find?_cons_of_neg, List.find?_cons_of_neg,
        ih]
      · simp [h]
      · simp [h]

theorem any_id_map_update (l : List ChatSession) (cur : String)
    (g : ChatSession → ChatSession) (hg : ∀ s, (g s).id = s.id) (i : String) :
    (l.map (fun s => if s.id = cur then g s else s)).any (fun s => s.id = i)
      = l.any (fun s => s.id = i) := by
  induction l with
  | nil => rfl
  | cons a l ih =>
    rw [List.map_cons, List.any_cons, List.any_cons, ih]
    by_cases h : a.id = cur <;> simp [h, hg]

theorem addMessage_current (st : HistoryState) (cur : String)
    (sess : ChatSession) (i : String) (now : Nat) (text : String) (u : Bool)
    (hcur : st.currentChatSessionId = some cur)
    (hfind : st.chatSessions.find? (fun s => s.id = cur) = some sess) :
    (addMessageToCurrentChat st i now text u).currentChatSessionId = some cur ∧
    (addMessageToCurrentChat st i now text u).chatSessions.find?
        (fun s => s.id = cur) = some (addToSession sess i now text u) := by
  unfold addMessageToCurrentChat
  rw [hcur]
  refine ⟨rfl, ?_⟩
  show (st.chatSessions.map _).find? _ = _
  rw [find?_map_update st.chatSessions cur
    (fun s => addToSession s i now text u) (fun s => rfl), hfind]
  rfl

theorem updateLast_current (st : HistoryState) (cur : String)
    (sess : ChatSession) (now : Nat) (t : String)
    (hcur : st.currentChatSessionId = some cur)
    (hfind : st.chatSessions.find? (fun s => s.id = cur) = some sess) :
    (updateLastAIMessage st now t).currentChatSessionId = some cur ∧
    (updateLastAIMessage st now t).chatSessions.find?
        (fun s => s.id = cur) = some (updateSessionLastAI sess now t) := by
  unfold updateLastAIMessage
  rw [hcur]
  refine ⟨rfl, ?_⟩
  show (st.chatSessions.map _).find? _ = _
  rw [find?_map_update st.chatSessions cur
    (fun s => updateSessionLastAI s now t) (fun s => updateSessionLastAI_id s now t),
    hfind]
  rfl

theorem updateSessionLastAI_concat (sess : ChatSession)
    (base : List ChatMessage) (m : ChatMessage) (now : Nat) (t : String)
    (hm : sess.messages = base ++ [m]) (hu : m.isUser = false) :
    (updateSessionLastAI sess now t).messages
      = base ++ [{ m with text := t, timestamp := now }] := by
  unfold updateSessionLastAI
  rw [hm, List.getLast?_concat base]
  simp [hu, List.dropLast_concat]

theorem processLine_eq (now : Nat) (acc : String) (st : HistoryState)
    (line : String) :
    processLine now acc st line =
      match lineContent line with
      | none => (acc, st, lineBreaks line)
      | some c => (acc ++ c, updateLastAIMessage st now (acc ++ c),
          lineBreaks line) := by
  unfold processLine lineContent lineBreaks
  by_cases h₁ : jsStartsWith line "data: "
  · rw [if_pos h₁, if_pos h₁, if_pos h₁]
    cases parseJson (jsSlice line 6) with
    | none => rfl
    | some data =>
      by_cases h₂ : jsTruthy (data.getField "error")
      · simp [h₂]
      · by_cases h₃ : jsTruthy (data.getField "content") <;> simp [h₂, h₃]
  · rw [if_neg h₁, if_neg h₁, if_neg h₁]

theorem processLines_invariant (now : Nat) (cur aId : String)
    (base : List ChatMessage) :
    ∀ (ls : List String) (acc : String) (st : HistoryState)
      (sess : ChatSession),
    st.currentChatSessionId = some cur →
    st.chatSessions.find? (fun s => s.id = cur) = some sess →
    sess.messages = base ++ [⟨aId, acc, false, now⟩] →
    (processLines now ls acc st).2.currentChatSessionId = some cur ∧
    ∃ sess',
      (processLines now ls acc st).2.chatSessions.find? (fun s => s.id = cur)
        = some sess' ∧
      sess'.messages = base ++ [⟨aId, (processLines now ls acc st).1, false, now⟩]
  | [], acc, st, sess, hcur, hfind, hmsgs => ⟨hcur, sess, hfind, hmsgs⟩
  | line :: rest, acc, st, sess, hcur, hfind, hmsgs => by
    rw [processLines, processLine_eq]
    cases hlc : lineContent line
    · cases hb : lineBreaks line
      · exact processLines_invariant now cur aId base rest acc st sess hcur hfind hmsgs
      · exact ⟨hcur, sess, hfind, hmsgs⟩
    · rename_i c
      have hup := updateLast_current st cur sess now (acc ++ c) hcur hfind
      have hupm : (updateSessionLastAI sess now (acc ++ c)).messages
          = base ++ [⟨aId, acc ++ c, false, now⟩] :=
        updateSessionLastAI_concat sess base _ now (acc ++ c) hmsgs rfl
      cases hb : lineBreaks line
      · exact processLines_invariant now cur aId base rest (acc ++ c) _ _ hup.1 hup.2 hupm
      · exact ⟨hup.1, _, hup.2, hupm⟩

theorem processChunks_invariant (now : Nat) (cur aId : String)
    (base : List ChatMessage) :
    ∀ (chunks : List String) (acc : String) (st : HistoryState)
      (sess : ChatSession),
    st.currentChatSessionId = some cur →
    st.chatSessions.find? (fun s => s.id = cur) = some sess →
    sess.messages = base ++ [⟨aId, acc, false, now⟩] →
    (processChunks now chunks acc st).2.currentChatSessionId = some cur ∧
    ∃ sess',
      (processChunks now chunks acc st).2.chatSessions.find? (fun s => s.id = cur)
        = some sess' ∧
      sess'.messages
        = base ++ [⟨aId, (processChunks now chunks acc st).1, false, now⟩]
  | [], acc, st, sess, hcur, hfind, hmsgs => ⟨hcur, sess, hfind, hmsgs⟩
  | chunk :: rest, acc, st, sess, hcur, hfind, hmsgs => by
    have h₁ := processLines_invariant now cur aId base (jsSplitNewline chunk)
      acc st sess hcur hfind hmsgs
    obtain ⟨hcur₁, sess₁, hfind₁, hmsgs₁⟩ := h₁
    have h₂ := processChunks_invariant now cur aId base rest
      (processLines now (jsSplitNewline chunk) acc st).1
      (processLines now (jsSplitNewline chunk) acc st).2 sess₁ hcur₁ hfind₁ hmsgs₁
    exact h₂

theorem processLines_acc_pure :
    ∀ (ls : List String) (acc : String) (now now' : Nat)
      (st st' : HistoryState),
    (processLines now ls acc st).1 = (processLines now' ls acc st').1
  | [], _, _, _, _, _ => rfl
  | line :: rest, acc, now, now', st, st' => by
    rw [processLines, processLines, processLine_eq, processLine_eq]
    cases hlc : lineContent line
    · cases hb : lineBreaks line
      · exact processLines_acc_pure rest acc now now' _ _
      · rfl
    · rename_i c
      cases hb : lineBreaks line
      · exact processLines_acc_pure rest (acc ++ c) now now' _ _
      · rfl

theorem processChunks_acc_pure :
    ∀ (chunks : List String) (acc : String) (now now' : Nat)
      (st st' : HistoryState),
    (processChunks now chunks acc st).1 = (processChunks now' chunks acc st').1
  | [], _, _, _, _, _ => rfl
  | chunk :: rest, acc, now, now', st, st' => by
    show (processChunks now rest _ _).1 = (processChunks now' rest _ _).1
    rw [processLines_acc_pure (jsSplitNewline chunk) acc now now' st st']
    exact processChunks_acc_pure rest _ now now' _ _

theorem processLines_noContent :
    ∀ (ls : List String) (now : Nat) (acc : String) (st : HistoryState),
    (∀ line ∈ ls, lineContent line = none) →
    processLines now ls acc st = (acc, st)
  | [], _, _, _, _ => rfl
  | line :: rest, now, acc, st, h => by
    rw [processLines, processLine_eq, h line (by simp)]
    cases hb : lineBreaks line
    · exact processLines_noContent rest now acc st
        (fun l hl => h l (List.mem_cons_of_mem line hl))
    · rfl

theorem processChunks_noContent :
    ∀ (chunks : List String) (now : Nat) (acc : String) (st : HistoryState),
    (∀ chunk ∈ chunks, ∀ line ∈ jsSplitNewline chunk, lineContent line = none) →
    processChunks now chunks acc st = (acc, st)
  | [], _, _, _, _ => rfl
  | chunk :: rest, now, acc, st, h => by
    show processChunks now rest (processLines now (jsSplitNewline chunk) acc st).1
      (processLines now (jsSplitNewline chunk) acc st).2 = (acc, st)
    rw [processLines_noContent (jsSplitNewline chunk) now acc st (h chunk (by simp))]
    exact processChunks_noContent rest now acc st
      (fun c hc => h c (List.mem_cons_of_mem chunk hc))

theorem currentChatMessages_eq (st : HistoryState) (cur : String)
    (sess : ChatSession) (hcur : st.currentChatSessionId = some cur)
    (hfind : st.chatSessions.find? (fun s => s.id = cur) = some sess) :
    currentChatMessages st = sess.messages := by
  unfold currentChatMessages
  rw [hcur]
  show (match st.chatSessions.find? (fun s => s.id = cur) with
        | some s => s.messages
        | none => []) = sess.messages
  rw [hfind]

/-- Shape of a completed send against a `200` response with a readable body:
the current session gains the user message and the placeholder; the
placeholder's final text is the accumulated content, or the apology text when
the accumulator stayed empty; exactly one error notification fires in the
latter case and none in the former; the sending flag ends `false`. -/
theorem handleSend_ok_shape (st : HistoryState) (cur : String)
    (sess : ChatSession) (uId aId : String) (now : Nat) (text : String)
    (chunks : List String)
    (hcur : st.currentChatSessionId = some cur)
    (hfind : st.chatSessions.find? (fun s => s.id = cur) = some sess) :
    currentChatMessages (handleSendMessage st uId aId now text
        ⟨200, some chunks⟩).state
      = sess.messages ++ [⟨uId, text, true, now⟩,
          ⟨aId, if pureAcc chunks = "" then apologyText else pureAcc chunks,
            false, now⟩] ∧
    (handleSendMessage st uId aId now text ⟨200, some chunks⟩).errorNotifications
      = (if pureAcc chunks = "" then 1 else 0) ∧
    (handleSendMessage st uId aId now text ⟨200, some chunks⟩).isSendingMessage
      = false := by
  have h₁ := addMessage_current st cur sess uId now text true hcur hfind
  have h₂ := addMessage_current _ cur _ aId now "" false h₁.1 h₁.2
  have hshape : (addToSession (addToSession sess uId now text true) aId now ""
      false).messages
      = (sess.messages ++ [⟨uId, text, true, now⟩]) ++ [⟨aId, "", false, now⟩] := by
    show (addToSession sess uId now text true).messages ++ _ = _
    rfl
  have hst₂ :
      handleSendMessage st uId aId now text ⟨200, some chunks⟩ =
        (if (processChunks now chunks ""
              (addMessageToCurrentChat
                (addMessageToCurrentChat st uId now text true) aId now "" false)).1
            = "" then
          { state := updateLastAIMessage
              (processChunks now chunks ""
                (addMessageToCurrentChat
                  (addMessageToCurrentChat st uId now text true) aId now ""
                  false)).2 now apologyText
            isSendingMessage := false, errorNotifications := 1 }
        else
          { state := (processChunks now chunks ""
              (addMessageToCurrentChat
                (addMessageToCurrentChat st uId now text true) aId now ""
                false)).2
            isSendingMessage := false, errorNotifications := 0 }) := rfl
  have hinv := processChunks_invariant now cur aId
    (sess.messages ++ [⟨uId, text, true, now⟩]) chunks ""
    (addMessageToCurrentChat (addMessageToCurrentChat st uId now text true)
      aId now "" false)
    (addToSession (addToSession sess uId now text true) aId now "" false)
    h₂.1 h₂.2 hshape
  obtain ⟨hcur', sess', hfind', hmsgs'⟩ := hinv
  have hpure : (processChunks now chunks ""
      (addMessageToCurrentChat (addMessageToCurrentChat st uId now text true)
        aId now "" false)).1 = pureAcc chunks :=
    processChunks_acc_pure chunks "" now 0 _ _
  by_cases hacc : pureAcc chunks = ""
  · rw [hst₂, if_pos (hpure.trans hacc), if_pos hacc, if_pos hacc]
    have hup := updateLast_current _ cur sess' now apologyText hcur' hfind'
    have hupm := updateSessionLastAI_concat sess' _ _ now apologyText hmsgs' rfl
    refine ⟨?_, rfl, rfl⟩
    rw [currentChatMessages_eq _ cur _ hup.1 hup.2, hupm, hpure, hacc,
      List.append_assoc]
    rfl
  · rw [hst₂, if_neg (fun h => hacc (hpure.symm.trans h)), if_neg hacc,
      if_neg hacc]
    refine ⟨?_, rfl, rfl⟩
    rw [currentChatMessages_eq _ cur _ hcur' hfind', hmsgs', hpure,
      List.append_assoc]
    rfl

theorem addToSession_title_of_ne_nil (s : ChatSession) (i : String) (now : Nat)
    (t : String) (u : Bool) (h : s.messages ≠ []) :
    (addToSession s i now t u).title = s.title := by
  unfold addToSession
  have : ¬(s.messages.length = 0 ∧ u = true) := by
    intro hc
    exact h (List.length_eq_zero.mp hc.1)
  rw [if_neg this]

theorem addToSession_messages_ne_nil (s : ChatSession) (i : String) (now : Nat)
    (t : String) (u : Bool) : (addToSession s i now t u).messages ≠ [] := by
  unfold addToSession
  simp

theorem foldAddCalls_title_of_ne_nil :
    ∀ (calls : List AddCall) (s : ChatSession), s.messages ≠ [] →
    (foldAddCalls s calls).title = s.title
  | [], _, _ => rfl
  | c :: rest, s, h => by
    show (foldAddCalls (addToSession s c.newId c.now c.text c.isUser) rest).title
      = s.title
    rw [foldAddCalls_title_of_ne_nil rest _
      (addToSession_messages_ne_nil s c.newId c.now c.text c.isUser),
      addToSession_title_of_ne_nil s c.newId c.now c.text c.isUser h]

theorem initializeHistory_valid (h : List ChatSession) (now : Nat) :
    currentValid (initializeHistory h now) := by
  cases h with
  | nil =>
    intro i hi
    simp only [initializeHistory] at hi
    cases hi
    simp [sessionExists, initializeHistory]
  | cons first rest =>
    intro i hi
    simp only [initializeHistory] at hi
    cases hi
    simp [sessionExists, initializeHistory]

theorem addMessage_currentId (st : HistoryState) (i : String) (now : Nat)
    (t : String) (u : Bool) :
    (addMessageToCurrentChat st i now t u).currentChatSessionId
      = st.currentChatSessionId := by
  unfold addMessageToCurrentChat
  cases hcur : st.currentChatSessionId with
  | none => exact hcur
  | some cur => rfl

theorem addMessage_sessionExists (st : HistoryState) (i : String) (now : Nat)
    (t : String) (u : Bool) (j : String) :
    sessionExists (addMessageToCurrentChat st i now t u) j
      = sessionExists st j := by
  unfold addMessageToCurrentChat sessionExists
  cases hcur : st.currentChatSessionId with
  | none => rfl
  | some cur =>
    exact any_id_map_update st.chatSessions cur
      (fun s => addToSession s i now t u) (fun s => rfl) j

theorem updateLast_currentId (st : HistoryState) (now : Nat) (t : String) :
    (updateLastAIMessage st now t).currentChatSessionId
      = st.currentChatSessionId := by
  unfold updateLastAIMessage
  cases hcur : st.currentChatSessionId with
  | none => exact hcur
  | some cur => rfl

theorem updateLast_sessionExists (st : HistoryState) (now : Nat) (t : String)
    (j : String) :
    sessionExists (updateLastAIMessage st now t) j = sessionExists st j := by
  unfold updateLastAIMessage sessionExists
  cases hcur : st.currentChatSessionId with
  | none => rfl
  | some cur =>
    exact any_id_map_update st.chatSessions cur
      (fun s => updateSessionLastAI s now t)
      (fun s => updateSessionLastAI_id s now t) j

theorem applyOp_preserves_valid (st : HistoryState) (op : HistoryOp)
    (hv : currentValid st) (hok : opOk st op) : currentValid (applyOp st op) := by
  cases op with
  | startNew now =>
    intro i hi
    simp only [applyOp, startNewChat] at hi ⊢
    cases hi
    simp [sessionExists]
  | select sessionId =>
    intro i hi
    have hic : some sessionId = some i := hi
    cases hic
    exact hok
  | add newId now text isUser =>
    intro i hi
    simp only [applyOp] at hi ⊢
    rw [addMessage_currentId] at hi
    rw [addMessage_sessionExists]
    exact hv i hi
  | updateLast now newText =>
    intro i hi
    simp only [applyOp] at hi ⊢
    rw [updateLast_currentId] at hi
    rw [updateLast_sessionExists]
    exact hv i hi

theorem runOps_preserves_valid :
    ∀ (ops : List HistoryOp) (st : HistoryState), currentValid st →
    ValidOps st ops → currentValid (runOps st ops)
  | [], _, hv, _ => hv
  | op :: rest, st, hv, hops =>
    runOps_preserves_valid rest (applyOp st op)
      (applyOp_preserves_valid st op hv hops.1) hops.2

theorem decode_encode_message (m : ChatMessage) :
    decodeMessage (encodeMessage m) = some m := by
  simp [decodeMessage, encodeMessage, Json.getField]

theorem decode_encode_messages :
    ∀ ms : List ChatMessage,
    decodeList decodeMessage (ms.map encodeMessage) = some ms
  | [] => rfl
  | m :: rest => by
    rw [List.map_cons, decodeList, decode_encode_message,
      decode_encode_messages rest]

theorem decode_encode_session (s : ChatSession) :
    decodeSession (encodeSession s) = some s := by
  simp [decodeSession, encodeSession, Json.getField, decode_encode_messages]

theorem decode_encode_history :
    ∀ h : List ChatSession, decodeHistory (encodeHistory h) = some h := by
  intro h
  show decodeList decodeSession (h.map encodeSession) = some h
  induction h with
  | nil => rfl
  | cons s rest ih => rw [List.map_cons, decodeList, decode_encode_session, ih]

theorem getLast?_append_pair (ms : List ChatMessage) (u a : ChatMessage) :
    (ms ++ [u, a]).getLast? = some a := by
  rw [show ms ++ [u, a] = (ms ++ [u]) ++ [a] by simp, List.getLast?_concat]

theorem handleSend_success (st : HistoryState) (cur : String)
    (sess : ChatSession) (uId aId : String) (now : Nat) (text : String)
    (chunks : List String) (hcur : st.currentChatSessionId = some cur)
    (hfind : st.chatSessions.find? (fun s => s.id = cur) = some sess)
    (hne : pureAcc chunks ≠ "") :
    (handleSendMessage st uId aId now text
        ⟨200, some chunks⟩).errorNotifications = 0 ∧
    (currentChatMessages (handleSendMessage st uId aId now text
        ⟨200, some chunks⟩).state).getLast?
      = some ⟨aId, pureAcc chunks, false, now⟩ := by
  obtain ⟨h₁, h₂, h₃⟩ :=
    handleSend_ok_shape st cur sess uId aId now text chunks hcur hfind
  rw [if_neg hne] at h₁ h₂
  exact ⟨h₂, by rw [h₁, getLast?_append_pair]⟩

theorem handleSend_apology (st : HistoryState) (cur : String)
    (sess : ChatSession) (uId aId : String) (now : Nat) (text : String)
    (chunks : List String) (hcur : st.currentChatSessionId = some cur)
    (hfind : st.chatSessions.find? (fun s => s.id = cur) = some sess)
    (hempty : pureAcc chunks = "") :
    (handleSendMessage st uId aId now text
        ⟨200, some chunks⟩).errorNotifications = 1 ∧
    (currentChatMessages (handleSendMessage st uId aId now text
        ⟨200, some chunks⟩).state).getLast?
      = some ⟨aId, apologyText, false, now⟩ := by
  obtain ⟨h₁, h₂, h₃⟩ :=
    handleSend_ok_shape st cur sess uId aId now text chunks hcur hfind
  rw [if_pos hempty] at h₁ h₂
  exact ⟨h₂, by rw [h₁, getLast?_append_pair]⟩

/-! ### The claims -/

/-- C1 (code bug demonstration): the claim states that a streamed `data: `
record whose JSON carries an `error` field terminates the send as a failure
carrying that message, and in particular that a stream delivering content
records and then an error record ends in the failure path.  In the code the
`throw new Error(data.error)` is raised inside the `try` whose
`catch (parseError)` was written for JSON parse failures, so the thrown error
is caught and logged there and processing continues.  Evaluated on a stream
delivering `data: {"content":"hi"}` and then `data: {"error":"boom"}`, the
send completes as a success: zero error notifications fire and the assistant
message ends as `"hi"`, not as a failure with the error's message. -/
theorem c1_error_record_swallowed :
    (handleSendMessage (initializeHistory [] 0) "u1" "a1" 5 "hi there"
        ⟨200, some
          ["data: \x7b\"content\":\"hi\"\x7d\ndata: \x7b\"error\":\"boom\"\x7d\n"]⟩).errorNotifications
      = 0 ∧
    currentChatMessages (handleSendMessage (initializeHistory [] 0) "u1" "a1" 5
        "hi there"
        ⟨200, some
          ["data: \x7b\"content\":\"hi\"\x7d\ndata: \x7b\"error\":\"boom\"\x7d\n"]⟩).state
      = [⟨"u1", "hi there", true, 5⟩, ⟨"a1", "hi", false, 5⟩] := by
  constructor
  · decide
  · decide

/-- C2 (counterexample): the claim asserts that the first `addMessage` call
with `isUser = true` on an initially empty session sets the title from the
truncation rule even when an assistant message was appended first.  After
appending an assistant message `"a"` and then a user message `"hello"` to a
fresh session, the title is still `"New Chat"`, not `deriveTitle "hello"` =
`"hello"`: the title is only derived when the session is still empty at the
time of the user call. -/
theorem c2_counterexample :
    (runOps (initializeHistory [] 0)
        [.add "m1" 1 "a" false, .add "m2" 2 "hello" true]).chatSessions.map
        ChatSession.title
      = ["New Chat"] ∧
    deriveTitle "hello" = "hello" ∧ ("New Chat" : String) ≠ "hello" := by
  refine ⟨by decide, by decide, by decide⟩

/-- C2 (amended): for every session with zero prior messages and every
sequence of `addMessage` calls on it, the title after the sequence is: the
truncation rule (`deriveTitle`, first 30 characters plus `"..."` iff the text
is longer than 30) applied to the first call's text if that first call is a
user message, and the original title otherwise — in particular, when an
assistant message is appended to the empty session first, no later call ever
changes the title. -/
theorem c2_amended (s : ChatSession) (calls : List AddCall)
    (hs : s.messages = []) :
    (foldAddCalls s calls).title =
      match calls with
      | [] => s.title
      | c :: _ => if c.isUser then deriveTitle c.text else s.title := by
  cases calls with
  | nil => rfl
  | cons c rest =>
    show (foldAddCalls (addToSession s c.newId c.now c.text c.isUser) rest).title
      = _
    rw [foldAddCalls_title_of_ne_nil rest _
      (addToSession_messages_ne_nil s c.newId c.now c.text c.isUser)]
    unfold addToSession
    rw [hs]
    cases hu : c.isUser <;> simp [hu]

/-- Witness for C2 (amended): on a fresh empty session, a single user call
with a 34-character text sets the title to its first 30 characters plus
`"..."`. -/
theorem c2_amended_witness :
    (createNewChatSession 0).messages = [] ∧
    (foldAddCalls (createNewChatSession 0)
        [⟨"m1", 1, "0123456789012345678901234567890123", true⟩]).title
      = deriveTitle "0123456789012345678901234567890123" ∧
    deriveTitle "0123456789012345678901234567890123"
      = "012345678901234567890123456789..." :=
  ⟨rfl, c2_amended (createNewChatSession 0) _ rfl, by decide⟩

/-- C3 (counterexample): the claim asserts that in every state reachable after
initialization by `startNewChat`, `selectChatSession`, `addMessage` and
`updateLastAssistantMessage`, a set current-session id always references an
existing session.  `selectChatSession` stores its argument without validating
existence, so selecting an id that never existed produces a dangling
reference: after initializing from an empty store and selecting `"ghost"`,
the current id is `"ghost"` but no session has that id. -/
theorem c3_counterexample :
    (runOps (initializeHistory [] 0) [.select "ghost"]).currentChatSessionId
      = some "ghost" ∧
    sessionExists (runOps (initializeHistory [] 0) [.select "ghost"]) "ghost"
      = false := by
  refine ⟨rfl, by decide⟩

/-- C3 (amended): after initialization, the current-session reference is never
dangling along any sequence of operations in which `selectChatSession` is
only ever passed the id of an existing session (the calling discipline the
code expects of the presentation layer); `startNewChat`, `addMessage` and
`updateLastAssistantMessage` are unrestricted. -/
theorem c3_amended (h : List ChatSession) (now : Nat) (ops : List HistoryOp)
    (hops : ValidOps (initializeHistory h now) ops) :
    currentValid (runOps (initializeHistory h now) ops) :=
  runOps_preserves_valid ops _ (initializeHistory_valid h now) hops

/-- Witness for C3 (amended): initializing from an empty store and then
selecting the synthesized session's id and starting a new chat keeps the
reference valid. -/
theorem c3_amended_witness :
    ValidOps (initializeHistory [] 0)
      [HistoryOp.select "chat-0", HistoryOp.startNew 1] ∧
    currentValid (runOps (initializeHistory [] 0)
      [HistoryOp.select "chat-0", HistoryOp.startNew 1]) :=
  have hops : ValidOps (initializeHistory [] 0)
      [HistoryOp.select "chat-0", HistoryOp.startNew 1] :=
    ⟨(by decide : sessionExists (initializeHistory [] 0) "chat-0" = true),
      trivial, trivial⟩
  ⟨hops, c3_amended [] 0 _ hops⟩

/-- C4 (counterexample): the claim quantifies over every manager state whose
current session's last message is a user message (or whose messages are
empty) and asserts `updateLastAssistantMessage` changes nothing.  The
mutation maps over *all* sessions bearing the current id, while "the current
session" is the first match; in a state with two sessions of the same id
where the first ends in a user message and the second in an assistant
message, the precondition holds of the current session yet the second
session is modified. -/
theorem c4_counterexample :
    (currentChatMessages
        ⟨[⟨"a", "t1", [⟨"m1", "u", true, 0⟩], 0, 0⟩,
          ⟨"a", "t2", [⟨"m2", "x", false, 0⟩], 0, 0⟩], some "a", false⟩).getLast?
      = some ⟨"m1", "u", true, 0⟩ ∧
    updateLastAIMessage
        ⟨[⟨"a", "t1", [⟨"m1", "u", true, 0⟩], 0, 0⟩,
          ⟨"a", "t2", [⟨"m2", "x", false, 0⟩], 0, 0⟩], some "a", false⟩ 5 "zz"
      ≠ ⟨[⟨"a", "t1", [⟨"m1", "u", true, 0⟩], 0, 0⟩,
          ⟨"a", "t2", [⟨"m2", "x", false, 0⟩], 0, 0⟩], some "a", false⟩ := by
  refine ⟨by decide, by decide⟩

/-- C4 (amended): for every manager state with a current id such that every
session bearing that id has an empty message sequence or a last message with
`isUser = true` — which holds in particular whenever session ids are
pairwise distinct and the current session satisfies the condition —
`updateLastAssistantMessage` leaves the entire state unchanged, for every new
text. -/
theorem c4_amended (st : HistoryState) (cur : String) (now : Nat)
    (newText : String) (hcur : st.currentChatSessionId = some cur)
    (hall : ∀ sess ∈ st.chatSessions, sess.id = cur →
      sess.messages.getLast?.all (fun m => m.isUser) = true) :
    updateLastAIMessage st now newText = st := by
  unfold updateLastAIMessage
  rw [hcur]
  show (⟨st.chatSessions.map (fun session =>
      if session.id = cur then updateSessionLastAI session now newText
      else session), some cur, st.isLoading⟩ : HistoryState) = st
  have hmap : st.chatSessions.map (fun session =>
      if session.id = cur then updateSessionLastAI session now newText
      else session) = st.chatSessions := by
    calc st.chatSessions.map (fun session =>
          if session.id = cur then updateSessionLastAI session now newText
          else session)
        = st.chatSessions.map id := by
          refine List.map_congr_left (fun a ha => ?_)
          by_cases hid : a.id = cur
          · rw [if_pos hid]
            show updateSessionLastAI a now newText = a
            unfold updateSessionLastAI
            cases hm : a.messages.getLast? with
            | none => rfl
            | some m =>
              have hm' := hall a ha hid
              rw [hm] at hm'
              simp only [Option.all_some] at hm'
              simp [hm']
          · rw [if_neg hid]
            rfl
      _ = st.chatSessions := List.map_id st.chatSessions
  rw [hmap, ← hcur]

/-- Witness for C4 (amended): a single-session state whose session ends in a
user message is left untouched. -/
theorem c4_amended_witness :
    (⟨[⟨"a", "t", [⟨"m", "u", true, 0⟩], 0, 0⟩], some "a", false⟩ :
        HistoryState).currentChatSessionId = some "a" ∧
    updateLastAIMessage
        ⟨[⟨"a", "t", [⟨"m", "u", true, 0⟩], 0, 0⟩], some "a", false⟩ 5 "zz"
      = ⟨[⟨"a", "t", [⟨"m", "u", true, 0⟩], 0, 0⟩], some "a", false⟩ :=
  ⟨rfl, c4_amended _ "a" 5 "zz" rfl (by decide)⟩

/-- C5: from any state with a current session, a send whose HTTP request
succeeds and whose stream delivers the newline-terminated lines
`data: {"content":"Hel"}`, `data: {"content":"lo"}` and `data: {"done":true}`
split across two reads (at either line boundary) leaves the assistant
placeholder's final text equal to `"Hello"`. -/
theorem c5_streaming_accumulation (st : HistoryState) (cur : String)
    (sess : ChatSession) (uId aId : String) (now : Nat) (text : String)
    (chunks : List String) (hcur : st.currentChatSessionId = some cur)
    (hfind : st.chatSessions.find? (fun s => s.id = cur) = some sess)
    (hk : chunks = ["data: \x7b\"content\":\"Hel\"\x7d\n",
        "data: \x7b\"content\":\"lo\"\x7d\ndata: \x7b\"done\":true\x7d\n"] ∨
      chunks = ["data: \x7b\"content\":\"Hel\"\x7d\ndata: \x7b\"content\":\"lo\"\x7d\n",
        "data: \x7b\"done\":true\x7d\n"]) :
    (currentChatMessages (handleSendMessage st uId aId now text
        ⟨200, some chunks⟩).state).getLast?
      = some ⟨aId, "Hello", false, now⟩ := by
  rcases hk with rfl | rfl
  · have hacc : pureAcc ["data: \x7b\"content\":\"Hel\"\x7d\n",
        "data: \x7b\"content\":\"lo\"\x7d\ndata: \x7b\"done\":true\x7d\n"]
        = "Hello" := by decide
    have h := (handleSend_success st cur sess uId aId now text _ hcur hfind
      (by rw [hacc]; decide)).2
    rw [hacc] at h
    exact h
  · have hacc : pureAcc ["data: \x7b\"content\":\"Hel\"\x7d\ndata: \x7b\"content\":\"lo\"\x7d\n",
        "data: \x7b\"done\":true\x7d\n"] = "Hello" := by decide
    have h := (handleSend_success st cur sess uId aId now text _ hcur hfind
      (by rw [hacc]; decide)).2
    rw [hacc] at h
    exact h

/-- Witness for C5: the freshly initialized state, with the stream split
after the first line. -/
theorem c5_witness :
    (initializeHistory [] 0).currentChatSessionId = some "chat-0" ∧
    (initializeHistory [] 0).chatSessions.find? (fun s => s.id = "chat-0")
      = some (createNewChatSession 0) ∧
    (currentChatMessages (handleSendMessage (initializeHistory [] 0) "u1" "a1"
        7 "hi"
        ⟨200, some ["data: \x7b\"content\":\"Hel\"\x7d\n",
          "data: \x7b\"content\":\"lo\"\x7d\ndata: \x7b\"done\":true\x7d\n"]⟩).state).getLast?
      = some ⟨"a1", "Hello", false, 7⟩ :=
  ⟨by decide, by decide,
    c5_streaming_accumulation (initializeHistory [] 0) "chat-0"
      (createNewChatSession 0) "u1" "a1" 7 "hi" _ (by decide) (by decide)
      (Or.inl rfl)⟩

/-- C6: from any state with a current session, a stream delivering the line
`data: {not valid json}` followed by `data: {"content":"ok"}` and
`data: {"done":true}` (under any grouping of the three lines into reads)
completes the send without raising: no error notification fires, the
malformed record is skipped without aborting the stream, and the assistant
placeholder's final text is `"ok"`. -/
theorem c6_malformed_record_tolerance (st : HistoryState) (cur : String)
    (sess : ChatSession) (uId aId : String) (now : Nat) (text : String)
    (chunks : List String) (hcur : st.currentChatSessionId = some cur)
    (hfind : st.chatSessions.find? (fun s => s.id = cur) = some sess)
    (hk : chunks
        = ["data: \x7bnot valid json\x7d\ndata: \x7b\"content\":\"ok\"\x7d\ndata: \x7b\"done\":true\x7d\n"] ∨
      chunks = ["data: \x7bnot valid json\x7d\n",
        "data: \x7b\"content\":\"ok\"\x7d\ndata: \x7b\"done\":true\x7d\n"] ∨
      chunks = ["data: \x7bnot valid json\x7d\ndata: \x7b\"content\":\"ok\"\x7d\n",
        "data: \x7b\"done\":true\x7d\n"] ∨
      chunks = ["data: \x7bnot valid json\x7d\n", "data: \x7b\"content\":\"ok\"\x7d\n",
        "data: \x7b\"done\":true\x7d\n"]) :
    (handleSendMessage st uId aId now text
        ⟨200, some chunks⟩).errorNotifications = 0 ∧
    (currentChatMessages (handleSendMessage st uId aId now text
        ⟨200, some chunks⟩).state).getLast?
      = some ⟨aId, "ok", false, now⟩ := by
  rcases hk with rfl | rfl | rfl | rfl
  · have hacc : pureAcc
        ["data: \x7bnot valid json\x7d\ndata: \x7b\"content\":\"ok\"\x7d\ndata: \x7b\"done\":true\x7d\n"]
        = "ok" := by decide
    have h := handleSend_success st cur sess uId aId now text
      ["data: \x7bnot valid json\x7d\ndata: \x7b\"content\":\"ok\"\x7d\ndata: \x7b\"done\":true\x7d\n"]
      hcur hfind (by rw [hacc]; decide)
    rw [hacc] at h
    exact h
  · have hacc : pureAcc ["data: \x7bnot valid json\x7d\n",
        "data: \x7b\"content\":\"ok\"\x7d\ndata: \x7b\"done\":true\x7d\n"]
        = "ok" := by decide
    have h := handleSend_success st cur sess uId aId now text
      ["data: \x7bnot valid json\x7d\n",
        "data: \x7b\"content\":\"ok\"\x7d\ndata: \x7b\"done\":true\x7d\n"]
      hcur hfind (by rw [hacc]; decide)
    rw [hacc] at h
    exact h
  · have hacc : pureAcc
        ["data: \x7bnot valid json\x7d\ndata: \x7b\"content\":\"ok\"\x7d\n",
          "data: \x7b\"done\":true\x7d\n"] = "ok" := by decide
    have h := handleSend_success st cur sess uId aId now text
      ["data: \x7bnot valid json\x7d\ndata: \x7b\"content\":\"ok\"\x7d\n",
        "data: \x7b\"done\":true\x7d\n"]
      hcur hfind (by rw [hacc]; decide)
    rw [hacc] at h
    exact h
  · have hacc : pureAcc ["data: \x7bnot valid json\x7d\n",
        "data: \x7b\"content\":\"ok\"\x7d\n", "data: \x7b\"done\":true\x7d\n"]
        = "ok" := by decide
    have h := handleSend_success st cur sess uId aId now text
      ["data: \x7bnot valid json\x7d\n", "data: \x7b\"content\":\"ok\"\x7d\n",
        "data: \x7b\"done\":true\x7d\n"]
      hcur hfind (by rw [hacc]; decide)
    rw [hacc] at h
    exact h

/-- Witness for C6: the freshly initialized state with all three lines in one
read. -/
theorem c6_witness :
    (initializeHistory [] 0).chatSessions.find? (fun s => s.id = "chat-0")
      = some (createNewChatSession 0) ∧
    (handleSendMessage (initializeHistory [] 0) "u1" "a1" 7 "hi"
        ⟨200, some ["data: \x7bnot valid json\x7d\ndata: \x7b\"content\":\"ok\"\x7d\ndata: \x7b\"done\":true\x7d\n"]⟩).errorNotifications
      = 0 ∧
    (currentChatMessages (handleSendMessage (initializeHistory [] 0) "u1" "a1"
        7 "hi"
        ⟨200, some ["data: \x7bnot valid json\x7d\ndata: \x7b\"content\":\"ok\"\x7d\ndata: \x7b\"done\":true\x7d\n"]⟩).state).getLast?
      = some ⟨"a1", "ok", false, 7⟩ :=
  have h := c6_malformed_record_tolerance (initializeHistory [] 0) "chat-0"
    (createNewChatSession 0) "u1" "a1" 7 "hi" _ (by decide) (by decide)
    (Or.inl rfl)
  ⟨by decide, h.1, h.2⟩

/-- C7: from any state with a current session, a send whose HTTP request
succeeds but whose stream contains no `data: ` record that contributes
content (so the accumulator stays empty) takes the failure path: exactly one
error notification fires and the assistant placeholder's text ends as the
fixed apology string. -/
theorem c7_empty_response_failure (st : HistoryState) (cur : String)
    (sess : ChatSession) (uId aId : String) (now : Nat) (text : String)
    (chunks : List String) (hcur : st.currentChatSessionId = some cur)
    (hfind : st.chatSessions.find? (fun s => s.id = cur) = some sess)
    (hnc : ∀ chunk ∈ chunks, ∀ line ∈ jsSplitNewline chunk,
      lineContent line = none) :
    (handleSendMessage st uId aId now text
        ⟨200, some chunks⟩).errorNotifications = 1 ∧
    (currentChatMessages (handleSendMessage st uId aId now text
        ⟨200, some chunks⟩).state).getLast?
      = some ⟨aId, apologyText, false, now⟩ := by
  have hempty : pureAcc chunks = "" := by
    unfold pureAcc
    rw [processChunks_noContent chunks 0 "" ⟨[], none, true⟩ hnc]
  exact handleSend_apology st cur sess uId aId now text chunks hcur hfind hempty

/-- Witness for C7: the freshly initialized state against a stream consisting
of a single `done` record, which contributes no content. -/
theorem c7_witness :
    (∀ chunk ∈ (["data: \x7b\"done\":true\x7d\n"] : List String),
      ∀ line ∈ jsSplitNewline chunk, lineContent line = none) ∧
    (handleSendMessage (initializeHistory [] 0) "u1" "a1" 7 "hi"
        ⟨200, some ["data: \x7b\"done\":true\x7d\n"]⟩).errorNotifications = 1 ∧
    (currentChatMessages (handleSendMessage (initializeHistory [] 0) "u1" "a1"
        7 "hi"
        ⟨200, some ["data: \x7b\"done\":true\x7d\n"]⟩).state).getLast?
      = some ⟨"a1", apologyText, false, 7⟩ :=
  have h := c7_empty_response_failure (initializeHistory [] 0) "chat-0"
    (createNewChatSession 0) "u1" "a1" 7 "hi" ["data: \x7b\"done\":true\x7d\n"]
    (by decide) (by decide) (by decide)
  ⟨by decide, h.1, h.2⟩

/-- C8: from any state with a current session, a send against a backend that
answers with HTTP status 500 (any body) leaves the current session's messages
extended by the user message with the sent text followed by an assistant
message carrying the apology text, and the sending flag is false again. -/
theorem c8_http_500_scenario (st : HistoryState) (cur : String)
    (sess : ChatSession) (uId aId : String) (now : Nat) (text : String)
    (body : Option (List String))
    (hcur : st.currentChatSessionId = some cur)
    (hfind : st.chatSessions.find? (fun s => s.id = cur) = some sess) :
    currentChatMessages (handleSendMessage st uId aId now text
        ⟨500, body⟩).state
      = sess.messages ++ [⟨uId, text, true, now⟩,
          ⟨aId, apologyText, false, now⟩] ∧
    (handleSendMessage st uId aId now text ⟨500, body⟩).isSendingMessage
      = false := by
  have h₁ := addMessage_current st cur sess uId now text true hcur hfind
  have h₂ := addMessage_current _ cur _ aId now "" false h₁.1 h₁.2
  have hshape : (addToSession (addToSession sess uId now text true) aId now ""
      false).messages
      = (sess.messages ++ [⟨uId, text, true, now⟩]) ++ [⟨aId, "", false, now⟩] := by
    show (addToSession sess uId now text true).messages ++ _ = _
    rfl
  have hup := updateLast_current _ cur _ now apologyText h₂.1 h₂.2
  have hupm := updateSessionLastAI_concat _ _ _ now apologyText hshape rfl
  refine ⟨?_, rfl⟩
  show currentChatMessages (updateLastAIMessage (addMessageToCurrentChat
    (addMessageToCurrentChat st uId now text true) aId now "" false) now
      apologyText) = _
  rw [currentChatMessages_eq _ cur _ hup.1 hup.2, hupm, List.append_assoc]
  rfl

/-- Witness for C8: the freshly initialized state against a 500 answer with
an empty body. -/
theorem c8_witness :
    (initializeHistory [] 0).chatSessions.find? (fun s => s.id = "chat-0")
      = some (createNewChatSession 0) ∧
    currentChatMessages (handleSendMessage (initializeHistory [] 0) "u1" "a1"
        7 "write a hello world" ⟨500, some []⟩).state
      = [⟨"u1", "write a hello world", true, 7⟩,
          ⟨"a1", apologyText, false, 7⟩] ∧
    (handleSendMessage (initializeHistory [] 0) "u1" "a1" 7
        "write a hello world" ⟨500, some []⟩).isSendingMessage = false :=
  have h := c8_http_500_scenario (initializeHistory [] 0) "chat-0"
    (createNewChatSession 0) "u1" "a1" 7 "write a hello world" (some [])
    (by decide) (by decide)
  ⟨by decide, h.1, h.2⟩

/-- C9: saving any history sequence through the store adapter and loading it
back, with the storage context available, yields a sequence equal to the
original: the JSON encoding of the session shape decodes to the same
sessions. -/
theorem c9_round_trip (h : List ChatSession) (store : Option Json) :
    loadChatHistory true (saveChatHistory true h store) = h := by
  show loadChatHistory true (some (encodeHistory h)) = h
  show (decodeHistory (encodeHistory h)).getD [] = h
  rw [decode_encode_history]
  rfl

/-- C10: when the current id matches no session, `addMessage` and
`updateLastAssistantMessage` leave the whole state unchanged for every input:
the message is silently dropped, no session is created. -/
theorem c10_dangling_current_noop (st : HistoryState) (cur : String)
    (i : String) (now : Nat) (text : String) (u : Bool) (newText : String)
    (hcur : st.currentChatSessionId = some cur)
    (hnone : ∀ sess ∈ st.chatSessions, sess.id ≠ cur) :
    addMessageToCurrentChat st i now text u = st ∧
    updateLastAIMessage st now newText = st := by
  constructor
  · unfold addMessageToCurrentChat
    rw [hcur]
    show (⟨st.chatSessions.map (fun session =>
        if session.id = cur then addToSession session i now text u
        else session), some cur, st.isLoading⟩ : HistoryState) = st
    have hmap : st.chatSessions.map (fun session =>
        if session.id = cur then addToSession session i now text u
        else session) = st.chatSessions := by
      calc st.chatSessions.map (fun session =>
            if session.id = cur then addToSession session i now text u
            else session)
          = st.chatSessions.map id := by
            refine List.map_congr_left (fun a ha => ?_)
            rw [if_neg (hnone a ha)]
            rfl
        _ = st.chatSessions := List.map_id st.chatSessions
    rw [hmap, ← hcur]
  · unfold updateLastAIMessage
    rw [hcur]
    show (⟨st.chatSessions.map (fun session =>
        if session.id = cur then updateSessionLastAI session now newText
        else session), some cur, st.isLoading⟩ : HistoryState) = st
    have hmap : st.chatSessions.map (fun session =>
        if session.id = cur then updateSessionLastAI session now newText
        else session) = st.chatSessions := by
      calc st.chatSessions.map (fun session =>
            if session.id = cur then updateSessionLastAI session now newText
            else session)
          = st.chatSessions.map id := by
            refine List.map_congr_left (fun a ha => ?_)
            rw [if_neg (hnone a ha)]
            rfl
        _ = st.chatSessions := List.map_id st.chatSessions
    rw [hmap, ← hcur]

/-- Witness for C10: one session `"s1"` with a dangling current id
`"ghost"`. -/
theorem c10_witness :
    (∀ sess ∈ (⟨[⟨"s1", "t", [], 0, 0⟩], some "ghost", false⟩ :
        HistoryState).chatSessions, sess.id ≠ "ghost") ∧
    addMessageToCurrentChat ⟨[⟨"s1", "t", [], 0, 0⟩], some "ghost", false⟩
        "m1" 5 "hello" true
      = ⟨[⟨"s1", "t", [], 0, 0⟩], some "ghost", false⟩ ∧
    updateLastAIMessage ⟨[⟨"s1", "t", [], 0, 0⟩], some "ghost", false⟩ 5 "zz"
      = ⟨[⟨"s1", "t", [], 0, 0⟩], some "ghost", false⟩ :=
  have h := c10_dangling_current_noop
    ⟨[⟨"s1", "t", [], 0, 0⟩], some "ghost", false⟩ "ghost" "m1" 5 "hello"
    true "zz" rfl (by decide)
  ⟨by decide, h.1, h.2⟩

end Hikari
